import Mathlib

/-!
Shallow embedding of `experiments_manager.py` (class `Experiment`).

Paths are lists of components from the filesystem root. The filesystem is an
explicit state (a list of existing directories and an association list from
file paths to contents). External `git` subprocess invocations are modelled by
an environment `GitEnv` fixing each command's outcome, and the commands
actually executed are collected in a trace. Logger calls are collected as a
list of `LogMsg`. Python exceptions are modelled with `Except PyError`.
-/

abbrev FsPath := List String

/-- Python exception classes relevant to this module. -/
inductive PyError where
  | attributeError
  | osError
  | typeError
  deriving DecidableEq, Repr

/-- Messages emitted through the logger. `exception` models
`Logger.exception`, which logs at error level together with the full
traceback of the active exception. -/
inductive LogMsg where
  | info (s : String)
  | exception (s : String)
  deriving DecidableEq, Repr

/-- The git subcommands the module can spawn via `subprocess.run`. -/
inductive GitCmd where
  | add
  | diffStaged
  | commit (msg : String)
  | revParse
  | push
  deriving DecidableEq, Repr

/-- Outcome environment for the external git processes: whether each
`check=True` invocation succeeds, the exit code of the (ignored) staged-diff
probe, and the stdout produced by `git rev-parse HEAD`. -/
structure GitEnv where
  addOk : Bool
  diffStagedExit : Int
  commitOk : Bool
  revParseOk : Bool
  revParseStdout : String

/-- Filesystem state: the set of existing directories and the files with
their contents. -/
structure FS where
  dirs : List FsPath
  files : List (FsPath × String)

/-- All nonempty prefixes of a path, shortest first (the chain of ancestors
created by `mkdir(parents=True)`). -/
def pathInits (p : FsPath) : List FsPath :=
  (List.range p.length).map (fun i => p.take (i + 1))

/-- `Path.mkdir(parents=True, exist_ok=True)`: create the directory and all
its ancestors, silently skipping those that already exist; file contents are
untouched. -/
def FS.mkdirParents (fs : FS) (p : FsPath) : FS :=
  { fs with
    dirs := (pathInits p).foldl (fun ds q => if q ∈ ds then ds else ds ++ [q]) fs.dirs }

/-- Content of the file at `p`, if present. -/
def FS.readFile (fs : FS) (p : FsPath) : Option String :=
  (fs.files.find? (fun e => decide (e.1 = p))).map Prod.snd

/-- `open(p, 'a')` followed by `write(s)` on the file level: append to the
existing content, or create the file with content `s` if absent. -/
def upsertAppend : List (FsPath × String) → FsPath → String → List (FsPath × String)
  | [], p, s => [(p, s)]
  | e :: rest, p, s =>
    if e.1 = p then (e.1, e.2 ++ s) :: rest else e :: upsertAppend rest p s

/-- `open(p, 'a')` with a write: fails with an `OSError` (FileNotFoundError)
when the parent directory does not exist. -/
def FS.appendFile (fs : FS) (p : FsPath) (s : String) : Except PyError FS :=
  if p.dropLast ∈ fs.dirs then
    .ok { fs with files := upsertAppend fs.files p s }
  else
    .error .osError

/-- Paths of every directory entry in the filesystem. -/
def FS.entryPaths (fs : FS) : List FsPath :=
  fs.dirs ++ fs.files.map Prod.fst

/-- When `q` is an immediate child of `p`, its final component. -/
def childName (p q : FsPath) : Option String :=
  if q.take p.length = p ∧ q.length = p.length + 1 then q.getLast? else none

/-- Names of the immediate (non-recursive) entries of directory `p`:
what `Path.iterdir()` lists. -/
def FS.childNames (fs : FS) (p : FsPath) : List String :=
  (fs.entryPaths.filterMap (childName p)).dedup

/-- `LOGS_NAME = 'logs'` (module-level constant). -/
def LOGS_NAME : String := "logs"

/-- The logger held by the manager: either the process-wide root logger
(`logging.getLogger()`) or a caller-supplied logger, identified by a tag. -/
inductive LoggerV where
  | rootDefault
  | supplied (l : String)
  deriving DecidableEq, Repr

/-- The `logging_module` argument: the default sentinel string `'default'`,
an explicit `None`, or a supplied logger. -/
inductive LoggerArg where
  | defaultStr
  | noneArg
  | supplied (l : String)
  deriving DecidableEq, Repr

/-- The `Experiment` object's attribute state. Attributes that Python only
assigns inside `initialize_experiment` (`_experiment_directory`, `_logs_dir`)
are `Option`s that are `none` while the attribute is still missing;
`_output_dir` is an `Option` that is explicitly `none` (Python `None`) after
construction. -/
structure Experiment where
  experiments_root_dir : FsPath
  outputs_name : String
  group_dir : FsPath
  experiment_name : String
  output_dir : Option FsPath
  id_generator : FS → String → String
  auto_commit_git : Bool
  log : LoggerV
  experiment_directory : Option FsPath
  logs_dir : Option FsPath

/-- `Experiment._get_experiment_index`: count of the immediate entries of the
group directory when it exists, else 0. (`Path.exists` is modelled as
directory existence; group paths that name regular files are out of scope.) -/
def get_experiment_index (group_dir : FsPath) (fs : FS) : Nat :=
  if group_dir ∈ fs.dirs then (fs.childNames group_dir).length else 0

/-- `Experiment._default_id_generator`: "{index}_{now:%Y-%m-%d_%H-%M-%S}".
The formatted wall-clock timestamp is the `now` argument; the integer is
rendered in decimal as Python's f-string does. -/
def default_id_generator (group_dir : FsPath) (fs : FS) (now : String) : String :=
  Nat.repr (get_experiment_index group_dir fs) ++ "_" ++ now

/-- `Experiment.__init__`. All attribute assignments precede the logger
branch; `logging_module == 'default'` reaches `logging.FileHandler()`, which
raises `TypeError` (its required `filename` argument is missing), so the
construction fails. The default id generator is a bound method reading
`self._group_dir`, which is fixed at construction. -/
def Experiment.pyInit (experiments_root_dir : FsPath) (experiment_name : String)
    (current_group_name : String) (auto_commit_git : Bool) (outputs_name : String)
    (logging_module : LoggerArg) (custom_id_generator : Option (FS → String → String)) :
    Except PyError Experiment :=
  let group_dir := experiments_root_dir ++ [current_group_name]
  match logging_module with
  | .defaultStr => .error .typeError
  | .noneArg =>
      .ok { experiments_root_dir, outputs_name, group_dir, experiment_name,
            output_dir := none,
            id_generator := match custom_id_generator with
              | some f => f
              | none => fun fs now => default_id_generator group_dir fs now,
            auto_commit_git, log := .rootDefault,
            experiment_directory := none, logs_dir := none }
  | .supplied l =>
      .ok { experiments_root_dir, outputs_name, group_dir, experiment_name,
            output_dir := none,
            id_generator := match custom_id_generator with
              | some f => f
              | none => fun fs now => default_id_generator group_dir fs now,
            auto_commit_git, log := .supplied l,
            experiment_directory := none, logs_dir := none }

/-- `Experiment.outputs_path` property: returns `self._output_dir`
(the value `None` before initialization — a value, not an error). -/
def Experiment.outputs_path (e : Experiment) : Option FsPath :=
  e.output_dir

/-- `Experiment.logs_path` property: returns `self._logs_dir`, an attribute
never assigned by `__init__`, so before initialization the access raises
`AttributeError`. -/
def Experiment.logs_path (e : Experiment) : Except PyError FsPath :=
  match e.logs_dir with
  | none => .error .attributeError
  | some p => .ok p

/-- `Experiment.experiment_root` property. -/
def Experiment.experiment_root (e : Experiment) : FsPath :=
  e.experiments_root_dir

/-- `Experiment.record_info`: append `info + '\n'` to
`self._experiment_directory / 'info.txt'` in append mode. Reading the
never-assigned attribute raises `AttributeError`; the filesystem write
fails with an `OSError` when the directory is missing. -/
def Experiment.record_info (e : Experiment) (fs : FS) (info : String) :
    Except PyError FS :=
  match e.experiment_directory with
  | none => .error .attributeError
  | some d => fs.appendFile (d ++ ["info.txt"]) (info ++ "\n")

/-- Result of `Experiment._do_auto_commit`: the trace of git subcommands
spawned, the log messages emitted, and the resulting state (or a propagated
non-`CalledProcessError` exception). -/
structure CommitResult where
  trace : List GitCmd
  logs : List LogMsg
  result : Except PyError FS

/-- `Experiment._do_auto_commit` (its `push` parameter defaults to `False`
and the push invocation is commented out, so no push command is ever run).
The `try` block runs `git add .` (check=True), the staged-diff probe
(check=False, result ignored), `git commit -m msg` (check=True),
`git rev-parse HEAD` (check=True), strips the stdout, and records the line
through `record_info`; a `CalledProcessError` from any checked command is
caught and logged via `Logger.exception('Git command failed: ')`, while
errors raised by `record_info` are not of that class and propagate. -/
def Experiment.do_auto_commit (e : Experiment) (fs : FS) (g : GitEnv)
    (msg : String) : CommitResult :=
  if g.addOk = false then
    { trace := [.add], logs := [.exception "Git command failed: "], result := .ok fs }
  else if g.commitOk = false then
    { trace := [.add, .diffStaged, .commit msg],
      logs := [.exception "Git command failed: "], result := .ok fs }
  else if g.revParseOk = false then
    { trace := [.add, .diffStaged, .commit msg, .revParse],
      logs := [.exception "Git command failed: "], result := .ok fs }
  else
    { trace := [.add, .diffStaged, .commit msg, .revParse],
      logs := [],
      result := e.record_info fs ("commit_hash: " ++ g.revParseStdout.trim) }

/-- `Experiment.initialize_experiment`, with the ambient inputs made
explicit: the filesystem, the formatted wall-clock time `now` handed to the
id generator, and the git outcome environment. Returns the updated object,
the updated filesystem, the trace of git commands spawned and the log
messages emitted. -/
def Experiment.initialize_experiment (e : Experiment) (fs : FS) (now : String)
    (g : GitEnv) :
    Except PyError (Experiment × FS × List GitCmd × List LogMsg) :=
  let msg0 := LogMsg.info ("Initializing experiment: " ++ e.group_dir.getLastD "" ++
    "/" ++ e.experiment_name)
  let expDir := e.group_dir ++ [e.id_generator fs now]
  let logsDir := expDir ++ [LOGS_NAME]
  let fs1 := fs.mkdirParents logsDir
  let e1 := { e with experiment_directory := some expDir, logs_dir := some logsDir,
                     output_dir := some (expDir ++ [e.outputs_name]) }
  if e.auto_commit_git then
    let msg1 := LogMsg.info "auto-creating experiment commit..."
    let cr := e1.do_auto_commit fs1 g
      ("Experiment auto-commit: " ++ e.group_dir.getLastD "" ++ "/" ++ e.experiment_name)
    match cr.result with
    | .error err => .error err
    | .ok fs2 => .ok (e1, fs2, cr.trace, msg0 :: msg1 :: cr.logs)
  else
    .ok (e1, fs1, [], [msg0])

/-! ### Lemmas about the filesystem model -/

theorem mem_foldl_insertDir (l : List FsPath) (ds : List FsPath) (q : FsPath) :
    q ∈ l.foldl (fun ds r => if r ∈ ds then ds else ds ++ [r]) ds ↔ q ∈ ds ∨ q ∈ l := by
  induction l generalizing ds with
  | nil => simp
  | cons a t ih =>
    simp only [List.foldl_cons, ih, List.mem_cons]
    by_cases ha : a ∈ ds
    · simp only [ha, if_true]
      constructor
      · tauto
      · rintro (h | h | h) <;> first | tauto | (subst h; tauto)
    · simp only [ha, if_false, List.mem_append, List.mem_singleton]
      tauto

theorem FS.mem_mkdirParents (fs : FS) (p q : FsPath) :
    q ∈ (fs.mkdirParents p).dirs ↔ q ∈ fs.dirs ∨ q ∈ pathInits p := by
  simpa [FS.mkdirParents] using mem_foldl_insertDir (pathInits p) fs.dirs q

theorem FS.files_mkdirParents (fs : FS) (p : FsPath) :
    (fs.mkdirParents p).files = fs.files := rfl

theorem take_mem_pathInits (p : FsPath) (n : Nat) (h0 : 0 < n) (hn : n ≤ p.length) :
    p.take n ∈ pathInits p := by
  simp only [pathInits, List.mem_map, List.mem_range]
  exact ⟨n - 1, by omega, by congr 1; omega⟩

theorem self_mem_pathInits (p : FsPath) (h : p ≠ []) : p ∈ pathInits p := by
  have := take_mem_pathInits p p.length (by simpa [List.length_pos] using h) le_rfl
  simpa using this

theorem left_mem_pathInits_append (l : FsPath) (x : String) (h : l ≠ []) :
    l ∈ pathInits (l ++ [x]) := by
  have := take_mem_pathInits (l ++ [x]) l.length
    (by simpa [List.length_pos] using h) (by simp)
  simpa [List.take_left] using this

theorem dropLast_append_singleton (l : FsPath) (a : String) :
    (l ++ [a]).dropLast = l := by
  simp

theorem find?_upsertAppend_self (files : List (FsPath × String)) (p : FsPath) (s : String) :
    ((upsertAppend files p s).find? (fun e => decide (e.1 = p))).map Prod.snd
      = some ((((files.find? (fun e => decide (e.1 = p))).map Prod.snd).getD "") ++ s) := by
  induction files with
  | nil => simp [upsertAppend, List.find?]
  | cons e t ih =>
    by_cases hp : e.1 = p
    · simp [upsertAppend, hp, List.find?]
    · simp only [upsertAppend, if_neg hp]
      rw [List.find?_cons_of_neg _ (by simpa using hp),
          List.find?_cons_of_neg _ (by simpa using hp)]
      exact ih

theorem find?_upsertAppend_ne (files : List (FsPath × String)) (p q : FsPath) (s : String)
    (h : q ≠ p) :
    (upsertAppend files p s).find? (fun e => decide (e.1 = q))
      = files.find? (fun e => decide (e.1 = q)) := by
  induction files with
  | nil =>
    have hpq : ¬ p = q := fun hpq => h hpq.symm
    simp [upsertAppend, List.find?, hpq]
  | cons e t ih =>
    by_cases hp : e.1 = p
    · have hq : ¬ e.1 = q := by rw [hp]; exact fun hpq => h hpq.symm
      simp only [upsertAppend, if_pos hp]
      rw [List.find?_cons_of_neg _ (by simpa using hq),
          List.find?_cons_of_neg _ (by simpa using hq)]
    · simp only [upsertAppend, if_neg hp]
      by_cases hq : e.1 = q
      · rw [List.find?_cons_of_pos _ (by simpa using hq),
            List.find?_cons_of_pos _ (by simpa using hq)]
      · rw [List.find?_cons_of_neg _ (by simpa using hq),
            List.find?_cons_of_neg _ (by simpa using hq)]
        exact ih

/-! ### Decimal representations contain no underscore -/

theorem digitChar_ne_underscore : ∀ m : Nat, m < 10 → Nat.digitChar m ≠ '_' := by decide

theorem toDigitsCore_ne_underscore (fuel : Nat) :
    ∀ (n : Nat) (ds : List Char), (∀ c ∈ ds, c ≠ '_') →
      ∀ c ∈ Nat.toDigitsCore 10 fuel n ds, c ≠ '_' := by
  induction fuel with
  | zero => intro n ds hds c hc; exact hds c (by simpa [Nat.toDigitsCore] using hc)
  | succ f ih =>
    intro n ds hds c hc
    have hcons : ∀ c ∈ Nat.digitChar (n % 10) :: ds, c ≠ '_' := by
      intro c hc
      rcases List.mem_cons.mp hc with h | h
      · subst h; exact digitChar_ne_underscore _ (Nat.mod_lt _ (by omega))
      · exact hds c h
    rw [Nat.toDigitsCore] at hc
    by_cases h : n / 10 = 0
    · rw [if_pos h] at hc
      exact hcons c hc
    · rw [if_neg h] at hc
      exact ih (n / 10) _ hcons c hc

theorem repr_ne_underscore (n : Nat) : ∀ c ∈ (Nat.repr n).data, c ≠ '_' := by
  intro c hc
  have : c ∈ Nat.toDigitsCore 10 (n + 1) n [] := by
    simpa [Nat.repr, Nat.toDigits, List.asString] using hc
  exact toDigitsCore_ne_underscore (n + 1) n [] (by simp) c this

theorem append_underscore_inj (a : List Char) :
    ∀ (b s t : List Char), (∀ c ∈ a, c ≠ '_') → (∀ c ∈ b, c ≠ '_') →
      a ++ '_' :: s = b ++ '_' :: t → s = t := by
  induction a with
  | nil =>
    intro b s t _ hb h
    cases b with
    | nil => simpa using h
    | cons y ys =>
      exfalso
      simp only [List.nil_append, List.cons_append, List.cons.injEq] at h
      exact hb y (by simp) h.1.symm
  | cons x xs ih =>
    intro b s t ha hb h
    cases b with
    | nil =>
      exfalso
      simp only [List.nil_append, List.cons_append, List.cons.injEq] at h
      exact ha x (by simp) h.1
    | cons y ys =>
      simp only [List.cons_append, List.cons.injEq] at h
      exact ih ys s t (fun c hc => ha c (by simp [hc])) (fun c hc => hb c (by simp [hc])) h.2

theorem repr_underscore_append_inj (a b : Nat) (s t : String)
    (h : Nat.repr a ++ "_" ++ s = Nat.repr b ++ "_" ++ t) : s = t := by
  have hd : (Nat.repr a).data ++ '_' :: s.data = (Nat.repr b).data ++ '_' :: t.data := by
    have hdata := congrArg String.data h
    simpa [String.data_append] using hdata
  have := append_underscore_inj (Nat.repr a).data (Nat.repr b).data s.data t.data
    (repr_ne_underscore a) (repr_ne_underscore b) hd
  exact String.ext this

/-! ### The shape of an initialization run -/

/-- The experiment directory allocated by a run of `initialize_experiment`
starting from filesystem `fs` at formatted time `now`. -/
def Experiment.newExpDir (e : Experiment) (fs : FS) (now : String) : FsPath :=
  e.group_dir ++ [e.id_generator fs now]

/-- The object state after `initialize_experiment` has assigned
`_experiment_directory`, `_logs_dir` and `_output_dir`. -/
def Experiment.afterInit (e : Experiment) (fs : FS) (now : String) : Experiment :=
  { e with experiment_directory := some (e.newExpDir fs now),
           logs_dir := some (e.newExpDir fs now ++ [LOGS_NAME]),
           output_dir := some (e.newExpDir fs now ++ [e.outputs_name]) }

/-- The info line `initialize_experiment` logs first. -/
def initLogLine (e : Experiment) : LogMsg :=
  .info ("Initializing experiment: " ++ e.group_dir.getLastD "" ++ "/" ++ e.experiment_name)

/-- The commit message passed to `_do_auto_commit`. -/
def commitMsgOf (e : Experiment) : String :=
  "Experiment auto-commit: " ++ e.group_dir.getLastD "" ++ "/" ++ e.experiment_name

/-- The git-command trace produced when some checked git invocation fails. -/
def failTrace (g : GitEnv) (m : String) : List GitCmd :=
  if g.addOk = false then [.add]
  else if g.commitOk = false then [.add, .diffStaged, .commit m]
  else [.add, .diffStaged, .commit m, .revParse]

theorem newExpDir_ne_nil (e : Experiment) (fs : FS) (now : String) :
    e.newExpDir fs now ≠ [] := by
  simp [Experiment.newExpDir]

theorem expDir_mem_after_mkdir (e : Experiment) (fs : FS) (now : String) :
    e.newExpDir fs now ∈ (fs.mkdirParents (e.newExpDir fs now ++ [LOGS_NAME])).dirs := by
  rw [FS.mem_mkdirParents]
  exact Or.inr (left_mem_pathInits_append _ _ (newExpDir_ne_nil e fs now))

theorem logsDir_mem_after_mkdir (e : Experiment) (fs : FS) (now : String) :
    e.newExpDir fs now ++ [LOGS_NAME]
      ∈ (fs.mkdirParents (e.newExpDir fs now ++ [LOGS_NAME])).dirs := by
  rw [FS.mem_mkdirParents]
  exact Or.inr (self_mem_pathInits _ (by simp))

theorem init_no_autocommit (e : Experiment) (fs : FS) (now : String) (g : GitEnv)
    (h : e.auto_commit_git = false) :
    e.initialize_experiment fs now g =
      .ok (e.afterInit fs now, fs.mkdirParents (e.newExpDir fs now ++ [LOGS_NAME]), [],
           [initLogLine e]) := by
  simp [Experiment.initialize_experiment, h, Experiment.afterInit, Experiment.newExpDir,
    initLogLine]

theorem init_git_fail (e : Experiment) (fs : FS) (now : String) (g : GitEnv)
    (hauto : e.auto_commit_git = true)
    (hfail : g.addOk = false ∨ g.commitOk = false ∨ g.revParseOk = false) :
    e.initialize_experiment fs now g =
      .ok (e.afterInit fs now, fs.mkdirParents (e.newExpDir fs now ++ [LOGS_NAME]),
           failTrace g (commitMsgOf e),
           [initLogLine e, .info "auto-creating experiment commit...",
            .exception "Git command failed: "]) := by
  cases hadd : g.addOk <;> cases hcom : g.commitOk <;> cases hrev : g.revParseOk <;>
    simp_all [Experiment.initialize_experiment, Experiment.do_auto_commit,
      Experiment.afterInit, Experiment.newExpDir, initLogLine, commitMsgOf, failTrace]

theorem push_not_mem_failTrace (g : GitEnv) (m : String) :
    GitCmd.push ∉ failTrace g m := by
  unfold failTrace
  split
  · simp
  · split <;> simp

theorem init_git_ok (e : Experiment) (fs : FS) (now : String) (g : GitEnv)
    (hauto : e.auto_commit_git = true)
    (ha : g.addOk = true) (hc : g.commitOk = true) (hr : g.revParseOk = true) :
    e.initialize_experiment fs now g =
      .ok (e.afterInit fs now,
           { fs.mkdirParents (e.newExpDir fs now ++ [LOGS_NAME]) with
             files := upsertAppend fs.files (e.newExpDir fs now ++ ["info.txt"])
                        ("commit_hash: " ++ g.revParseStdout.trim ++ "\n") },
           [.add, .diffStaged, .commit (commitMsgOf e), .revParse],
           [initLogLine e, .info "auto-creating experiment commit..."]) := by
  have hmem := expDir_mem_after_mkdir e fs now
  simp [Experiment.initialize_experiment, Experiment.do_auto_commit, hauto, ha, hc, hr,
    Experiment.record_info, FS.appendFile, dropLast_append_singleton,
    Experiment.afterInit, Experiment.newExpDir, initLogLine, commitMsgOf,
    FS.files_mkdirParents] at hmem ⊢
  simp [hmem]

theorem FS.readFile_congr (fs1 fs2 : FS) (h : fs1.files = fs2.files) (p : FsPath) :
    fs1.readFile p = fs2.readFile p := by
  simp [FS.readFile, h]

/-- Every run of `initialize_experiment` returns normally with the three
path attributes assigned, the logs directory created, every file other than
the freshly allocated experiment's `info.txt` untouched, and no push
command in the git trace. -/
theorem init_ok_shape (e : Experiment) (fs : FS) (now : String) (g : GitEnv) :
    ∃ fs' tr lg,
      e.initialize_experiment fs now g = .ok (e.afterInit fs now, fs', tr, lg) ∧
      fs'.dirs = (fs.mkdirParents (e.newExpDir fs now ++ [LOGS_NAME])).dirs ∧
      (∀ p, p ≠ e.newExpDir fs now ++ ["info.txt"] → fs'.readFile p = fs.readFile p) ∧
      GitCmd.push ∉ tr := by
  by_cases hauto : e.auto_commit_git = true
  · by_cases hfail : g.addOk = false ∨ g.commitOk = false ∨ g.revParseOk = false
    · refine ⟨_, _, _, init_git_fail e fs now g hauto hfail, rfl, ?_, ?_⟩
      · intro p _
        exact FS.readFile_congr _ _ (FS.files_mkdirParents fs _) p
      · exact push_not_mem_failTrace g (commitMsgOf e)
    · push_neg at hfail
      obtain ⟨ha, hc, hr⟩ := hfail
      refine ⟨_, _, _,
        init_git_ok e fs now g hauto (by simpa using ha) (by simpa using hc)
          (by simpa using hr), rfl, ?_, ?_⟩
      · intro p hp
        simp only [FS.readFile]
        rw [find?_upsertAppend_ne _ _ _ _ hp]
      · simp
  · refine ⟨_, _, _, init_no_autocommit e fs now g (by simpa using hauto), rfl, ?_, ?_⟩
    · intro p _
      exact FS.readFile_congr _ _ (FS.files_mkdirParents fs _) p
    · simp

/-! ### Concrete fixtures used by witnesses and counterexamples -/

def fsEmpty : FS := { dirs := [], files := [] }

def gAllOk : GitEnv :=
  { addOk := true, diffStagedExit := 0, commitOk := true, revParseOk := true,
    revParseStdout := "  abc123\n" }

def gCommitFail : GitEnv :=
  { addOk := true, diffStagedExit := 1, commitOk := false, revParseOk := true,
    revParseStdout := "" }

def eAuto : Experiment :=
  { experiments_root_dir := ["root"], outputs_name := "checkpoints",
    group_dir := ["root", "groupA"], experiment_name := "exp",
    output_dir := none,
    id_generator := fun fs now => default_id_generator ["root", "groupA"] fs now,
    auto_commit_git := true, log := .supplied "L",
    experiment_directory := none, logs_dir := none }

def eNoAuto : Experiment :=
  { experiments_root_dir := ["root"], outputs_name := "checkpoints",
    group_dir := ["root", "groupA"], experiment_name := "exp",
    output_dir := none,
    id_generator := fun fs now => default_id_generator ["root", "groupA"] fs now,
    auto_commit_git := false, log := .supplied "L",
    experiment_directory := none, logs_dir := none }

/-! ### Claims -/

/-- C1: with auto-commit enabled, if any checked step of the snapshot
sequence (stage, commit, or identifier-read) fails, `initialize_experiment`
still returns normally, the failure is logged through `Logger.exception`
(error level with full error detail), the logs directory has been created,
and no `commit_hash:` line is appended to `info.txt` (no file changes at
all). -/
theorem C1_snapshot_failure_caught (e : Experiment) (fs : FS) (now : String) (g : GitEnv)
    (hauto : e.auto_commit_git = true)
    (hfail : g.addOk = false ∨ g.commitOk = false ∨ g.revParseOk = false) :
    ∃ e' fs' tr lg,
      e.initialize_experiment fs now g = .ok (e', fs', tr, lg) ∧
      LogMsg.exception "Git command failed: " ∈ lg ∧
      e.newExpDir fs now ++ [LOGS_NAME] ∈ fs'.dirs ∧
      fs'.files = fs.files :=
  ⟨_, _, _, _, init_git_fail e fs now g hauto hfail, by simp,
    logsDir_mem_after_mkdir e fs now, FS.files_mkdirParents fs _⟩

theorem C1_witness :
    eAuto.auto_commit_git = true ∧
    (gCommitFail.addOk = false ∨ gCommitFail.commitOk = false ∨
      gCommitFail.revParseOk = false) ∧
    (∃ e' fs' tr lg,
      eAuto.initialize_experiment fsEmpty "T" gCommitFail = .ok (e', fs', tr, lg) ∧
      LogMsg.exception "Git command failed: " ∈ lg ∧
      eAuto.newExpDir fsEmpty "T" ++ [LOGS_NAME] ∈ fs'.dirs ∧
      fs'.files = fsEmpty.files) :=
  ⟨rfl, Or.inr (Or.inl rfl),
    C1_snapshot_failure_caught eAuto fsEmpty "T" gCommitFail rfl (Or.inr (Or.inl rfl))⟩

/-- C2: the snapshot sequence runs exactly stage, staged-diff probe, commit
with the supplied message, head-identifier read, in this order; the probe's
exit code has no effect on the run; a hard stage failure stops the sequence
after `git add`, a hard commit failure stops it after `git commit`; on
success the line `commit_hash: <identifier>` (identifier = stdout trimmed of
surrounding whitespace) is appended to `info.txt`; and a push is never
executed. -/
theorem C2_snapshot_sequence_exact (e : Experiment) (fs : FS) (now : String) (g : GitEnv)
    (hauto : e.auto_commit_git = true)
    (ha : g.addOk = true) (hc : g.commitOk = true) (hr : g.revParseOk = true) :
    (∃ e' fs' lg,
      e.initialize_experiment fs now g =
        .ok (e', fs', [.add, .diffStaged, .commit (commitMsgOf e), .revParse], lg) ∧
      fs'.readFile (e.newExpDir fs now ++ ["info.txt"])
        = some (((fs.readFile (e.newExpDir fs now ++ ["info.txt"])).getD "")
                 ++ ("commit_hash: " ++ g.revParseStdout.trim ++ "\n"))) ∧
    (∀ k : Int, e.initialize_experiment fs now { g with diffStagedExit := k }
        = e.initialize_experiment fs now g) ∧
    (∀ g' : GitEnv, g'.addOk = false →
      ∃ e' fs' lg,
        e.initialize_experiment fs now g' = .ok (e', fs', [GitCmd.add], lg)) ∧
    (∀ g' : GitEnv, g'.addOk = true → g'.commitOk = false →
      ∃ e' fs' lg,
        e.initialize_experiment fs now g' =
          .ok (e', fs', [.add, .diffStaged, .commit (commitMsgOf e)], lg)) ∧
    (∀ g' : GitEnv, ∀ e' fs' tr lg,
      e.initialize_experiment fs now g' = .ok (e', fs', tr, lg) → GitCmd.push ∉ tr) := by
  refine ⟨⟨_, _, _, init_git_ok e fs now g hauto ha hc hr, ?_⟩, ?_, ?_, ?_, ?_⟩
  · simp only [FS.readFile]
    exact find?_upsertAppend_self fs.files _ _
  · intro k
    rfl
  · intro g' hadd
    have h := init_git_fail e fs now g' hauto (Or.inl hadd)
    simp only [failTrace, hadd, if_true] at h
    exact ⟨_, _, _, h⟩
  · intro g' hadd hcom
    have h := init_git_fail e fs now g' hauto (Or.inr (Or.inl hcom))
    simp only [failTrace, hadd, hcom, if_true] at h
    simp at h
    exact ⟨_, _, _, h⟩
  · intro g' e' fs' tr lg h
    obtain ⟨fs'', tr'', lg'', heq, -, -, hpush⟩ := init_ok_shape e fs now g'
    have h2 := Except.ok.inj (h.symm.trans heq)
    have htr : tr = tr'' := congrArg (fun q => q.2.2.1) h2
    rw [htr]
    exact hpush

theorem C2_witness :
    eAuto.auto_commit_git = true ∧ gAllOk.addOk = true ∧ gAllOk.commitOk = true ∧
    gAllOk.revParseOk = true ∧
    ((∃ e' fs' lg,
      eAuto.initialize_experiment fsEmpty "T" gAllOk =
        .ok (e', fs', [.add, .diffStaged, .commit (commitMsgOf eAuto), .revParse], lg) ∧
      fs'.readFile (eAuto.newExpDir fsEmpty "T" ++ ["info.txt"])
        = some (((fsEmpty.readFile (eAuto.newExpDir fsEmpty "T" ++ ["info.txt"])).getD "")
                 ++ ("commit_hash: " ++ gAllOk.revParseStdout.trim ++ "\n"))) ∧
    (∀ k : Int, eAuto.initialize_experiment fsEmpty "T" { gAllOk with diffStagedExit := k }
        = eAuto.initialize_experiment fsEmpty "T" gAllOk) ∧
    (∀ g' : GitEnv, g'.addOk = false →
      ∃ e' fs' lg,
        eAuto.initialize_experiment fsEmpty "T" g' = .ok (e', fs', [GitCmd.add], lg)) ∧
    (∀ g' : GitEnv, g'.addOk = true → g'.commitOk = false →
      ∃ e' fs' lg,
        eAuto.initialize_experiment fsEmpty "T" g' =
          .ok (e', fs', [.add, .diffStaged, .commit (commitMsgOf eAuto)], lg)) ∧
    (∀ g' : GitEnv, ∀ e' fs' tr lg,
      eAuto.initialize_experiment fsEmpty "T" g' = .ok (e', fs', tr, lg) →
        GitCmd.push ∉ tr)) :=
  ⟨rfl, rfl, rfl, rfl, C2_snapshot_sequence_exact eAuto fsEmpty "T" gAllOk rfl rfl rfl rfl⟩

/-- C3: the default identifier generator returns
"{count}_{timestamp}" where count is the number of immediate entries of the
group directory (0 when it does not exist); with an empty or nonexistent
group directory the identifier begins with "0_", with 3 existing entries it
begins with "3_". -/
theorem C3_default_identifier (gd : FsPath) (fs : FS) (now : String) :
    default_id_generator gd fs now
        = Nat.repr (get_experiment_index gd fs) ++ "_" ++ now ∧
    (gd ∉ fs.dirs → default_id_generator gd fs now = "0_" ++ now) ∧
    (gd ∈ fs.dirs → fs.childNames gd = [] →
      default_id_generator gd fs now = "0_" ++ now) ∧
    (gd ∈ fs.dirs → (fs.childNames gd).length = 3 →
      default_id_generator gd fs now = "3_" ++ now) := by
  have h0 : ((Nat.repr 0 ++ "_" : String)) = "0_" := by decide
  have h3 : ((Nat.repr 3 ++ "_" : String)) = "3_" := by decide
  refine ⟨rfl, ?_, ?_, ?_⟩
  · intro h
    simp only [default_id_generator, get_experiment_index, if_neg h]
    rw [h0]
  · intro h hnil
    simp only [default_id_generator, get_experiment_index, if_pos h, hnil, List.length_nil]
    rw [h0]
  · intro h hlen
    simp only [default_id_generator, get_experiment_index, if_pos h, hlen]
    rw [h3]

def fs3 : FS :=
  { dirs := [["root"], ["root", "groupA"], ["root", "groupA", "a"],
             ["root", "groupA", "b"], ["root", "groupA", "c"]],
    files := [] }

theorem C3_witness :
    (["root", "groupA"] ∈ fs3.dirs ∧ (fs3.childNames ["root", "groupA"]).length = 3 ∧
      ["root", "groupA"] ∉ fsEmpty.dirs) ∧
    (default_id_generator ["root", "groupA"] fs3 "T"
        = Nat.repr (get_experiment_index ["root", "groupA"] fs3) ++ "_" ++ "T" ∧
    (["root", "groupA"] ∉ fs3.dirs → default_id_generator ["root", "groupA"] fs3 "T" = "0_" ++ "T") ∧
    (["root", "groupA"] ∈ fs3.dirs → fs3.childNames ["root", "groupA"] = [] →
      default_id_generator ["root", "groupA"] fs3 "T" = "0_" ++ "T") ∧
    (["root", "groupA"] ∈ fs3.dirs → (fs3.childNames ["root", "groupA"]).length = 3 →
      default_id_generator ["root", "groupA"] fs3 "T" = "3_" ++ "T")) :=
  ⟨by decide, C3_default_identifier ["root", "groupA"] fs3 "T"⟩

theorem record_info_ok (e : Experiment) (fs : FS) (d : FsPath) (s : String)
    (hd : e.experiment_directory = some d) (hdir : d ∈ fs.dirs) :
    e.record_info fs s
      = .ok { fs with files := upsertAppend fs.files (d ++ ["info.txt"]) (s ++ "\n") } := by
  simp [Experiment.record_info, hd, FS.appendFile, dropLast_append_singleton, hdir]

/-- C4: on an initialized manager (experiment directory assigned and
existing), `record_info` appends exactly the given text plus one trailing
newline to `info.txt` in the experiment directory, creating the file if
absent and leaving everything else unchanged; recording "x" then "y" into a
fresh file yields exactly the two lines "x" then "y". -/
theorem C4_record_info_appends (e : Experiment) (fs : FS) (d : FsPath) (s : String)
    (hd : e.experiment_directory = some d) (hdir : d ∈ fs.dirs) :
    (∃ fs1, e.record_info fs s = .ok fs1 ∧
      fs1.readFile (d ++ ["info.txt"])
        = some (((fs.readFile (d ++ ["info.txt"])).getD "") ++ (s ++ "\n")) ∧
      fs1.dirs = fs.dirs ∧
      ∀ q, q ≠ d ++ ["info.txt"] → fs1.readFile q = fs.readFile q) ∧
    (fs.readFile (d ++ ["info.txt"]) = none →
      ∃ fsx fsy, e.record_info fs "x" = .ok fsx ∧ e.record_info fsx "y" = .ok fsy ∧
        fsy.readFile (d ++ ["info.txt"]) = some "x\ny\n") := by
  constructor
  · refine ⟨_, record_info_ok e fs d s hd hdir, ?_, rfl, ?_⟩
    · simp only [FS.readFile]
      exact find?_upsertAppend_self fs.files _ _
    · intro q hq
      simp only [FS.readFile]
      rw [find?_upsertAppend_ne _ _ _ _ hq]
  · intro hnone
    refine ⟨_, _, record_info_ok e fs d "x" hd hdir, record_info_ok e _ d "y" hd hdir, ?_⟩
    have hx : (FS.mk fs.dirs (upsertAppend fs.files (d ++ ["info.txt"]) ("x" ++ "\n"))).readFile
        (d ++ ["info.txt"]) = some ("" ++ ("x" ++ "\n")) := by
      simp only [FS.readFile]
      rw [find?_upsertAppend_self fs.files _ _]
      simp only [FS.readFile] at hnone
      rw [hnone]
      rfl
    simp only [FS.readFile] at hx ⊢
    rw [find?_upsertAppend_self]
    rw [hx]
    have : ((("" : String) ++ ("x" ++ "\n")) ++ ("y" ++ "\n")) = "x\ny\n" := by decide
    simp [this]

def eRec : Experiment :=
  { experiments_root_dir := ["root"], outputs_name := "checkpoints",
    group_dir := ["root", "groupA"], experiment_name := "exp",
    output_dir := some ["root", "groupA", "exp0", "checkpoints"],
    id_generator := fun _ _ => "exp0",
    auto_commit_git := false, log := .supplied "L",
    experiment_directory := some ["root", "groupA", "exp0"],
    logs_dir := some ["root", "groupA", "exp0", "logs"] }

def fsInited : FS :=
  { dirs := [["root"], ["root", "groupA"], ["root", "groupA", "exp0"],
             ["root", "groupA", "exp0", "logs"]],
    files := [] }

theorem C4_witness :
    eRec.experiment_directory = some ["root", "groupA", "exp0"] ∧
    ["root", "groupA", "exp0"] ∈ fsInited.dirs ∧
    ((∃ fs1, eRec.record_info fsInited "hello" = .ok fs1 ∧
      fs1.readFile (["root", "groupA", "exp0"] ++ ["info.txt"])
        = some (((fsInited.readFile (["root", "groupA", "exp0"] ++ ["info.txt"])).getD "")
            ++ ("hello" ++ "\n")) ∧
      fs1.dirs = fsInited.dirs ∧
      ∀ q, q ≠ ["root", "groupA", "exp0"] ++ ["info.txt"] →
        fs1.readFile q = fsInited.readFile q) ∧
    (fsInited.readFile (["root", "groupA", "exp0"] ++ ["info.txt"]) = none →
      ∃ fsx fsy, eRec.record_info fsInited "x" = .ok fsx ∧
        eRec.record_info fsx "y" = .ok fsy ∧
        fsy.readFile (["root", "groupA", "exp0"] ++ ["info.txt"]) = some "x\ny\n")) :=
  ⟨rfl, by decide,
    C4_record_info_appends eRec fsInited ["root", "groupA", "exp0"] "hello" rfl (by decide)⟩

/-- C5: for every root, group and name, a run of `initialize_experiment`
returns normally; afterwards the directory root/group/identifier/logs
exists, all its ancestors exist (recursive creation), no pre-existing
directory is removed, and no file other than the new experiment's own
`info.txt` is changed (pre-existing contents are not cleared). -/
theorem C5_logs_dir_created (e : Experiment) (fs : FS) (now : String) (g : GitEnv)
    (root : FsPath) (group : String) (hgd : e.group_dir = root ++ [group]) :
    ∃ e' fs' tr lg,
      e.initialize_experiment fs now g = .ok (e', fs', tr, lg) ∧
      root ++ [group] ++ [e.id_generator fs now] ++ [LOGS_NAME] ∈ fs'.dirs ∧
      (∀ q ∈ pathInits (root ++ [group] ++ [e.id_generator fs now] ++ [LOGS_NAME]),
        q ∈ fs'.dirs) ∧
      (∀ q ∈ fs.dirs, q ∈ fs'.dirs) ∧
      (∀ p, p ≠ root ++ [group] ++ [e.id_generator fs now] ++ ["info.txt"] →
        fs'.readFile p = fs.readFile p) := by
  obtain ⟨fs', tr, lg, heq, hdirs, hfiles, -⟩ := init_ok_shape e fs now g
  have hexp : e.newExpDir fs now = root ++ [group] ++ [e.id_generator fs now] := by
    simp [Experiment.newExpDir, hgd]
  refine ⟨_, _, _, _, heq, ?_, ?_, ?_, ?_⟩
  · rw [hdirs, ← hexp]
    exact logsDir_mem_after_mkdir e fs now
  · intro q hq
    rw [hdirs, FS.mem_mkdirParents]
    right
    rw [hexp]
    exact hq
  · intro q hq
    rw [hdirs, FS.mem_mkdirParents]
    exact Or.inl hq
  · intro p hp
    apply hfiles
    rw [hexp]
    exact hp

theorem C5_witness :
    eNoAuto.group_dir = ["root"] ++ ["groupA"] ∧
    (∃ e' fs' tr lg,
      eNoAuto.initialize_experiment fsEmpty "T" gAllOk = .ok (e', fs', tr, lg) ∧
      ["root"] ++ ["groupA"] ++ [eNoAuto.id_generator fsEmpty "T"] ++ [LOGS_NAME]
        ∈ fs'.dirs ∧
      (∀ q ∈ pathInits (["root"] ++ ["groupA"] ++ [eNoAuto.id_generator fsEmpty "T"]
          ++ [LOGS_NAME]), q ∈ fs'.dirs) ∧
      (∀ q ∈ fsEmpty.dirs, q ∈ fs'.dirs) ∧
      (∀ p, p ≠ ["root"] ++ ["groupA"] ++ [eNoAuto.id_generator fsEmpty "T"]
          ++ ["info.txt"] → fs'.readFile p = fsEmpty.readFile p)) :=
  ⟨rfl, C5_logs_dir_created eNoAuto fsEmpty "T" gAllOk ["root"] "groupA" rfl⟩

theorem append_singleton_mem_pathInits (l : FsPath) (x y : String)
    (h : l ++ [x] ∈ pathInits (l ++ [y])) : x = y := by
  simp only [pathInits, List.mem_map, List.mem_range] at h
  obtain ⟨i, hi, hq⟩ := h
  have hlen := congrArg List.length hq
  simp only [List.length_take, List.length_append, List.length_cons,
    List.length_nil] at hlen hi
  have hieq : i = l.length := by omega
  subst hieq
  rw [show l.length + 1 = (l ++ [y]).length by simp, List.take_length] at hq
  have := List.append_cancel_left hq
  simpa using this.symm

/-- Projection: the outputs path of the object returned by a run of
`initialize_experiment`, when the run returns normally. -/
def initOutputsPath (e : Experiment) (fs : FS) (now : String) (g : GitEnv) :
    Option (Option FsPath) :=
  match e.initialize_experiment fs now g with
  | .ok (e', _, _, _) => some e'.outputs_path
  | .error _ => none

/-- Projection: the directory list of the filesystem returned by a run of
`initialize_experiment`, when the run returns normally. -/
def initDirs (e : Experiment) (fs : FS) (now : String) (g : GitEnv) : Option (List FsPath) :=
  match e.initialize_experiment fs now g with
  | .ok (_, fs', _, _) => some fs'.dirs
  | .error _ => none

def eLogsOut : Experiment :=
  { experiments_root_dir := ["root"], outputs_name := "logs",
    group_dir := ["root", "groupA"], experiment_name := "exp",
    output_dir := none,
    id_generator := fun _ _ => "exp0",
    auto_commit_git := false, log := .supplied "L",
    experiment_directory := none, logs_dir := none }

/-- C6 counterexample: with the outputs-subdirectory name configured as
"logs", the outputs path coincides with the logs directory, so `initialize`
does create it on the filesystem: the claim that the outputs path is never
created by initialize fails at this input. -/
theorem C6_counterexample :
    initOutputsPath eLogsOut fsEmpty "T" gAllOk
        = some (some ["root", "groupA", "exp0", "logs"]) ∧
    ["root", "groupA", "exp0", "logs"] ∈ (initDirs eLogsOut fsEmpty "T" gAllOk).getD [] ∧
    ["root", "groupA", "exp0", "logs"] ∉ fsEmpty.dirs := by
  decide

/-- C6 (amended): after `initialize_experiment` the outputs-path accessor
returns experiment-directory/outputs-name, a path whose last component is
the configured outputs name; and provided the configured outputs name
differs from the logs subdirectory name "logs", initialize leaves that
path's existence on the filesystem unchanged (when the name is "logs" the
outputs path coincides with the logs directory and is created). -/
theorem C6_outputs_path_not_created (e : Experiment) (fs : FS) (now : String) (g : GitEnv)
    (hname : e.outputs_name ≠ LOGS_NAME) :
    ∃ e' fs' tr lg,
      e.initialize_experiment fs now g = .ok (e', fs', tr, lg) ∧
      e'.outputs_path = some (e.newExpDir fs now ++ [e.outputs_name]) ∧
      (e.newExpDir fs now ++ [e.outputs_name]).getLast? = some e.outputs_name ∧
      ((e.newExpDir fs now ++ [e.outputs_name]) ∈ fs'.dirs ↔
        (e.newExpDir fs now ++ [e.outputs_name]) ∈ fs.dirs) := by
  obtain ⟨fs', tr, lg, heq, hdirs, -, -⟩ := init_ok_shape e fs now g
  refine ⟨_, _, _, _, heq, rfl, by simp, ?_⟩
  rw [hdirs, FS.mem_mkdirParents]
  constructor
  · rintro (h | h)
    · exact h
    · exact absurd (append_singleton_mem_pathInits _ _ _ h) hname
  · exact Or.inl

theorem C6_witness :
    eNoAuto.outputs_name ≠ LOGS_NAME ∧
    (∃ e' fs' tr lg,
      eNoAuto.initialize_experiment fsEmpty "T" gAllOk = .ok (e', fs', tr, lg) ∧
      e'.outputs_path = some (eNoAuto.newExpDir fsEmpty "T" ++ [eNoAuto.outputs_name]) ∧
      (eNoAuto.newExpDir fsEmpty "T" ++ [eNoAuto.outputs_name]).getLast?
        = some eNoAuto.outputs_name ∧
      ((eNoAuto.newExpDir fsEmpty "T" ++ [eNoAuto.outputs_name]) ∈ fs'.dirs ↔
        (eNoAuto.newExpDir fsEmpty "T" ++ [eNoAuto.outputs_name]) ∈ fsEmpty.dirs)) :=
  ⟨by decide, C6_outputs_path_not_created eNoAuto fsEmpty "T" gAllOk (by decide)⟩

def eColl : Experiment :=
  { experiments_root_dir := ["r"], outputs_name := "checkpoints",
    group_dir := ["r", "gC"], experiment_name := "exp",
    output_dir := none,
    id_generator := fun fs now => default_id_generator ["r", "gC"] fs now,
    auto_commit_git := false, log := .supplied "L",
    experiment_directory := none, logs_dir := none }

def fsColl : FS :=
  { dirs := [["r"], ["r", "gC"], ["r", "gC", "1_T"]], files := [] }

/-- C7: a second `initialize_experiment` on the same manager also returns
normally and assigns a freshly generated experiment directory, replacing the
prior reference; with the default generator the two identifiers differ
whenever the two formatted timestamps differ (calls at least one second
apart), and they can coincide for calls in the same second with the same
entry count, exhibited by a concrete run in which the allocated directory
already existed. -/
theorem C7_reinitialize_fresh (e : Experiment) (fs : FS) (t1 t2 : String) (g : GitEnv)
    (hgen : e.id_generator = fun fsx nowx => default_id_generator e.group_dir fsx nowx) :
    (∃ e1 fs1 tr1 lg1,
      e.initialize_experiment fs t1 g = .ok (e1, fs1, tr1, lg1) ∧
      e1.experiment_directory = some (e.group_dir ++ [e.id_generator fs t1]) ∧
      ∃ e2 fs2 tr2 lg2,
        e1.initialize_experiment fs1 t2 g = .ok (e2, fs2, tr2, lg2) ∧
        e2.experiment_directory = some (e.group_dir ++ [e1.id_generator fs1 t2]) ∧
        (t1 ≠ t2 → e1.id_generator fs1 t2 ≠ e.id_generator fs t1)) ∧
    (∃ (ec : Experiment) (fsc : FS) (nowc : String) (gc : GitEnv) (e1c : Experiment) (fs1c : FS) (tr1c : List GitCmd) (lg1c : List LogMsg),
      ec.id_generator = (fun fsx nowx => default_id_generator ec.group_dir fsx nowx) ∧
      ec.initialize_experiment fsc nowc gc = .ok (e1c, fs1c, tr1c, lg1c) ∧
      e1c.id_generator fs1c nowc = ec.id_generator fsc nowc) := by
  obtain ⟨fs1, tr1, lg1, heq1, -, -, -⟩ := init_ok_shape e fs t1 g
  obtain ⟨fs2, tr2, lg2, heq2, -, -, -⟩ := init_ok_shape (e.afterInit fs t1) fs1 t2 g
  constructor
  · refine ⟨_, _, _, _, heq1, rfl, _, _, _, _, heq2, rfl, ?_⟩
    intro hne heq
    have hafter : (e.afterInit fs t1).id_generator = e.id_generator := rfl
    rw [hafter, hgen] at heq
    simp only [default_id_generator] at heq
    exact hne (repr_underscore_append_inj _ _ _ _ heq).symm
  · refine ⟨eColl, fsColl, "T", gAllOk, _, _, _, _, rfl,
      init_no_autocommit eColl fsColl "T" gAllOk rfl, ?_⟩
    decide

theorem C7_witness :
    eNoAuto.id_generator
        = (fun fsx nowx => default_id_generator eNoAuto.group_dir fsx nowx) ∧
    ((∃ e1 fs1 tr1 lg1,
      eNoAuto.initialize_experiment fsEmpty "Ta" gAllOk = .ok (e1, fs1, tr1, lg1) ∧
      e1.experiment_directory
        = some (eNoAuto.group_dir ++ [eNoAuto.id_generator fsEmpty "Ta"]) ∧
      ∃ e2 fs2 tr2 lg2,
        e1.initialize_experiment fs1 "Tb" gAllOk = .ok (e2, fs2, tr2, lg2) ∧
        e2.experiment_directory
          = some (eNoAuto.group_dir ++ [e1.id_generator fs1 "Tb"]) ∧
        ("Ta" ≠ "Tb" → e1.id_generator fs1 "Tb" ≠ eNoAuto.id_generator fsEmpty "Ta")) ∧
    (∃ (ec : Experiment) (fsc : FS) (nowc : String) (gc : GitEnv) (e1c : Experiment) (fs1c : FS) (tr1c : List GitCmd) (lg1c : List LogMsg),
      ec.id_generator = (fun fsx nowx => default_id_generator ec.group_dir fsx nowx) ∧
      ec.initialize_experiment fsc nowc gc = .ok (e1c, fs1c, tr1c, lg1c) ∧
      e1c.id_generator fs1c nowc = ec.id_generator fsc nowc)) :=
  ⟨rfl, C7_reinitialize_fresh eNoAuto fsEmpty "Ta" "Tb" gAllOk rfl⟩

/-- C8 counterexample: calling `record_info` before `initialize_experiment`
fails with `AttributeError` (the `_experiment_directory` attribute was never
assigned), which is not a filesystem error, refuting the claim that this
failure surfaces as a filesystem error. -/
theorem C8_counterexample :
    eNoAuto.record_info fsEmpty "x" = .error .attributeError ∧
    PyError.attributeError ≠ PyError.osError :=
  ⟨rfl, by decide⟩

/-- C8 (amended): calling `record_info` before initialize fails with an
attribute error — not a filesystem error — and the failure propagates to the
caller un-swallowed; a filesystem write failure during `record_info` (the
experiment directory missing from the filesystem) propagates as-is as a
filesystem error. -/
theorem C8_record_info_errors (e : Experiment) (fs : FS) (s : String) :
    (e.experiment_directory = none → e.record_info fs s = .error .attributeError) ∧
    (∀ d, e.experiment_directory = some d → d ∉ fs.dirs →
      e.record_info fs s = .error .osError) := by
  constructor
  · intro h
    simp [Experiment.record_info, h]
  · intro d hd hdir
    simp [Experiment.record_info, hd, FS.appendFile, dropLast_append_singleton, hdir]

theorem C8_witness :
    eNoAuto.experiment_directory = none ∧
    eRec.experiment_directory = some ["root", "groupA", "exp0"] ∧
    ["root", "groupA", "exp0"] ∉ fsEmpty.dirs ∧
    ((eNoAuto.experiment_directory = none →
        eNoAuto.record_info fsEmpty "x" = .error .attributeError) ∧
      (∀ d, eNoAuto.experiment_directory = some d → d ∉ fsEmpty.dirs →
        eNoAuto.record_info fsEmpty "x" = .error .osError)) ∧
    ((eRec.experiment_directory = none →
        eRec.record_info fsEmpty "x" = .error .attributeError) ∧
      (∀ d, eRec.experiment_directory = some d → d ∉ fsEmpty.dirs →
        eRec.record_info fsEmpty "x" = .error .osError)) :=
  ⟨rfl, rfl, by decide, C8_record_info_errors eNoAuto fsEmpty "x",
    C8_record_info_errors eRec fsEmpty "x"⟩

/-- C9: constructing with the logger argument left at its default sentinel
evaluates `logging.FileHandler()` without the required `filename` argument
and raises `TypeError`, so no manager is built at all — contradicting the
claim that the default constructs a file-handler logger with no I/O (code
bug in the source). The other two logger branches behave as claimed: `None`
yields the default in-process root logger, any other supplied logger is used
as-is. -/
theorem C9_default_logger_crashes (root : FsPath) (name group : String)
    (ac : Bool) (outs : String) (gen : Option (FS → String → String)) :
    Experiment.pyInit root name group ac outs .defaultStr gen = .error .typeError ∧
    (∀ l, ∃ e, Experiment.pyInit root name group ac outs (.supplied l) gen = .ok e ∧
      e.log = .supplied l) ∧
    (∃ e, Experiment.pyInit root name group ac outs .noneArg gen = .ok e ∧
      e.log = .rootDefault) := by
  refine ⟨rfl, ?_, ?_⟩
  · intro l
    exact ⟨_, rfl, rfl⟩
  · exact ⟨_, rfl, rfl⟩

/-- C10: on a freshly constructed manager the accessors differ: the
outputs-path accessor returns the explicit value `None`, the logs-path
accessor raises `AttributeError` (no backing attribute), and the
experiment-root accessor already returns the configured root; the root is
left unchanged by `initialize_experiment` (and `record_info` returns only a
filesystem, never touching object attributes). -/
theorem C10_accessors_before_init (root : FsPath) (name group : String) (ac : Bool)
    (outs : String) (la : LoggerArg) (gen : Option (FS → String → String))
    (e : Experiment) (hok : Experiment.pyInit root name group ac outs la gen = .ok e) :
    e.outputs_path = none ∧
    e.logs_path = .error .attributeError ∧
    e.experiment_root = root ∧
    (∀ fs now g e' fs' tr lg,
      e.initialize_experiment fs now g = .ok (e', fs', tr, lg) →
        e'.experiment_root = root) := by
  cases la with
  | defaultStr => exact absurd hok (by simp [Experiment.pyInit])
  | noneArg =>
    simp only [Experiment.pyInit, Except.ok.injEq] at hok
    subst hok
    refine ⟨rfl, rfl, rfl, ?_⟩
    intro fs now g e' fs' tr lg h
    obtain ⟨fs'', tr'', lg'', heq, -, -, -⟩ := init_ok_shape _ fs now g
    have h2 := Except.ok.inj (h.symm.trans heq)
    have he' := congrArg Prod.fst h2
    simp only at he'
    rw [he']
    rfl
  | supplied l =>
    simp only [Experiment.pyInit, Except.ok.injEq] at hok
    subst hok
    refine ⟨rfl, rfl, rfl, ?_⟩
    intro fs now g e' fs' tr lg h
    obtain ⟨fs'', tr'', lg'', heq, -, -, -⟩ := init_ok_shape _ fs now g
    have h2 := Except.ok.inj (h.symm.trans heq)
    have he' := congrArg Prod.fst h2
    simp only at he'
    rw [he']
    rfl

theorem C10_witness :
    Experiment.pyInit ["root"] "exp" "groupA" false "checkpoints" (.supplied "L") none
        = .ok eNoAuto ∧
    (eNoAuto.outputs_path = none ∧
     eNoAuto.logs_path = .error .attributeError ∧
     eNoAuto.experiment_root = ["root"] ∧
     (∀ fs now g e' fs' tr lg,
       eNoAuto.initialize_experiment fs now g = .ok (e', fs', tr, lg) →
         e'.experiment_root = ["root"])) :=
  ⟨rfl, C10_accessors_before_init ["root"] "exp" "groupA" false "checkpoints"
    (.supplied "L") none eNoAuto rfl⟩
